import Mathlib

/-!
Shallow embedding of the parse-fetch library (src/src/parseFetchResponse.ts,
src/src/strategies/*, src/src/constants.ts, and the types module with
isParseResult / handleValidationResult), together with proofs about the
claims of its specification.

Modelling conventions:
* JavaScript runtime values are the inductive `JsValue`; plain JSON data
  (what `response.json()` resolves to) is the inductive `Json`.
* A promise that resolves with `v` is `Except.ok v`; a promise that rejects
  with reason `e` (equivalently, a thrown value) is `Except.error e`.
* A thrown `new Error(msg)` object is `JsValue.errVal msg`.
* Functions that can observably read the response body or invoke a
  validator additionally return the list of such events, so that claims of
  the form "the body is not read" or "the validator is never invoked"
  become statements about that trace.
* Platform primitives used by the code (JSON.parse, JSON.stringify, the
  Date constructor, string coercion in Array.prototype.join) are modelled
  by executable Lean functions, documented at their definitions.
-/

/-- Plain JSON data, the result type of the platform body reader
`response.json()`. Numbers are modelled as integers, which covers every
body the library and its tests exercise; no claim depends on fractional
numerals. -/
inductive Json where
  | null
  | bool (b : Bool)
  | num (n : Int)
  | str (s : String)
  | arr (elems : List Json)
  | obj (members : List (String × Json))
deriving Repr

/-- A JavaScript runtime value: JSON data plus the non-JSON values the
library manipulates, namely `undefined`, `Date` objects (carrying the
calendar day parsed from their source string, `none` for an invalid date),
`ArrayBuffer` contents, and `Error` objects carrying their message. -/
inductive JsValue where
  | null
  | undefinedVal
  | bool (b : Bool)
  | num (n : Int)
  | str (s : String)
  | arr (elems : List JsValue)
  | obj (members : List (String × JsValue))
  | date (day : Option (Nat × Nat × Nat))
  | bytes (data : List Nat)
  | errVal (msg : String)
deriving Repr

/-- Body-read operations a strategy can perform on a response. -/
inductive ReadOp where
  | text
  | json
  | arrayBuffer
deriving Repr, DecidableEq

/-- Observable events of a parse call: a body read, or an invocation of the
validator supplied in the options. -/
inductive Event where
  | read (op : ReadOp)
  | validate
deriving Repr, DecidableEq

/-- Identifier naming which registered strategy a `ParseStrategy` value is;
used only to observe the result of strategy selection in theorems. -/
inductive StrategyId where
  | additional
  | binary
  | json
  | text
  | xml
  | dflt
deriving Repr, DecidableEq

/-- `needle.isPrefixOf hay` on character lists, written out so that it
reduces by structural recursion. -/
def charsPrefixOf : List Char → List Char → Bool
  | [], _ => true
  | _ :: _, [] => false
  | a :: as, b :: bs => a == b && charsPrefixOf as bs

/-- Substring occurrence on character lists. -/
def includesChars (needle : List Char) : List Char → Bool
  | [] => needle.isEmpty
  | c :: cs => charsPrefixOf needle (c :: cs) || includesChars needle cs

/-- Model of `String.prototype.includes`: `strIncludes hay sub` is true iff
`sub` occurs contiguously in `hay`. -/
def strIncludes (hay sub : String) : Bool :=
  includesChars sub.data hay.data

/-- The JSON content-type family from src/src/constants.ts. -/
def jsonTypes : List String :=
  ["application/json", "application/ld+json", "application/vnd.api+json"]

/-- The XML content-type family from src/src/constants.ts. -/
def xmlTypes : List String :=
  ["application/xml", "text/xml", "application/atom+xml", "application/rss+xml",
   "application/soap+xml"]

/-- The text content-type family from src/src/constants.ts. -/
def textTypes : List String :=
  ["text/plain", "text/html", "text/css", "text/csv", "text/tab-separated-values",
   "text/javascript", "application/javascript", "application/x-javascript",
   "application/x-sh", "application/x-shellscript", "application/xhtml+xml",
   "application/csv", "application/x-www-form-urlencoded", "multipart/form-data"]

/-- The binary content-type family from src/src/constants.ts. -/
def binaryTypes : List String :=
  ["application/octet-stream", "application/pdf", "image/png", "image/jpeg",
   "image/gif", "image/svg+xml", "image/webp", "video/mp4", "video/webm",
   "video/avi", "audio/mp3", "audio/wav", "audio/ogg", "application/zip",
   "application/x-tar", "application/gzip", "application/x-gzip"]

/-- The additional content-type family from src/src/constants.ts. -/
def additionalTypes : List String :=
  ["text/markdown", "application/yaml", "text/yaml", "application/xml-dtd",
   "text/vcard", "application/vcard+json"]

/-- The response shape the library consumes: status information, the
content-type header, presence of a body, and the outcome of each body-read
operation (`Except.error e` models the read rejecting with reason `e`). -/
structure FetchResponse where
  ok : Bool
  status : Nat
  statusText : String
  contentTypeHeader : Option String
  hasBody : Bool
  textResult : Except JsValue String
  jsonResult : Except JsValue Json
  bufferResult : Except JsValue (List Nat)

/-- Options of a parse call (src/src/types.ts `ParseOptions`): an optional
content-type override, an optional JSON reviver, and an optional validator.
A validator is its untyped `validate` function: it may throw
(`Except.error`) or return any value (`Except.ok`). -/
structure ParseOptions where
  contentType : Option String := none
  reviver : Option (String → JsValue → JsValue) := none
  validator : Option (JsValue → Except JsValue JsValue) := none

/-- `error instanceof Error ? error.message : 'Unknown error'`, the message
extraction every strategy performs on a caught value. -/
def errMessage : JsValue → String
  | .errVal m => m
  | _ => "Unknown error"

/-- Escaping of one character inside a JSON string literal (model of the
escaping JSON.stringify performs; covers the characters occurring in this
development). -/
def escapeChar (c : Char) : String :=
  if c == '"' then "\\\""
  else if c == '\\' then "\\\\"
  else if c == '\n' then "\\n"
  else if c == '\t' then "\\t"
  else if c == '\r' then "\\r"
  else String.mk [c]

/-- Escaping of a whole string for JSON serialization. -/
def escapeStr (s : String) : String :=
  String.join (s.data.map escapeChar)

mutual
/-- Model of the platform primitive `JSON.stringify` on plain JSON data. -/
def stringifyJson : Json → String
  | .null => "null"
  | .bool true => "true"
  | .bool false => "false"
  | .num n => toString n
  | .str s => "\"" ++ escapeStr s ++ "\""
  | .arr es => "[" ++ stringifyArr es ++ "]"
  | .obj ms => "\x7b" ++ stringifyObj ms ++ "\x7d"
def stringifyArr : List Json → String
  | [] => ""
  | [e] => stringifyJson e
  | e :: es => stringifyJson e ++ "," ++ stringifyArr es
def stringifyObj : List (String × Json) → String
  | [] => ""
  | [(k, v)] => "\"" ++ escapeStr k ++ "\":" ++ stringifyJson v
  | (k, v) :: ms => "\"" ++ escapeStr k ++ "\":" ++ stringifyJson v ++ "," ++ stringifyObj ms
end

/-- Whitespace skipping for the JSON parser. -/
def skipWs : List Char → List Char
  | c :: cs => if c == ' ' || c == '\n' || c == '\t' || c == '\r' then skipWs cs else c :: cs
  | [] => []

/-- Parses the body of a JSON string literal after the opening quote,
undoing the escapes `escapeChar` produces. -/
def parseStrAux (acc : List Char) : List Char → Except String (String × List Char)
  | [] => .error "unterminated string"
  | '"' :: rest => .ok (String.mk acc.reverse, rest)
  | '\\' :: rest =>
    match rest with
    | '"' :: r => parseStrAux ('"' :: acc) r
    | '\\' :: r => parseStrAux ('\\' :: acc) r
    | '/' :: r => parseStrAux ('/' :: acc) r
    | 'n' :: r => parseStrAux ('\n' :: acc) r
    | 't' :: r => parseStrAux ('\t' :: acc) r
    | 'r' :: r => parseStrAux ('\r' :: acc) r
    | _ => .error "unsupported escape"
  | c :: rest => parseStrAux (c :: acc) rest

/-- Takes the longest digit run from the front of the input. -/
def takeDigits (acc : List Char) : List Char → List Char × List Char
  | c :: cs => if c.isDigit then takeDigits (c :: acc) cs else (acc.reverse, c :: cs)
  | [] => (acc.reverse, [])

/-- Numeric value of a digit run. -/
def digitsVal (acc : Nat) : List Char → Nat
  | [] => acc
  | c :: cs => digitsVal (acc * 10 + (c.toNat - 48)) cs

/-- Parses an integer numeral, the numeric subset this model supports. -/
def parseNum : List Char → Except String (Json × List Char)
  | '-' :: cs =>
    match takeDigits [] cs with
    | ([], _) => .error "expected digits"
    | (ds, rest) => .ok (.num (-(digitsVal 0 ds : Int)), rest)
  | cs =>
    match takeDigits [] cs with
    | ([], _) => .error "expected digits"
    | (ds, rest) => .ok (.num (digitsVal 0 ds : Int), rest)

/-- Inserts a member into an object, overwriting the value of an existing
key in place, as JavaScript property assignment does. -/
def objInsert (k : String) (v : Json) : List (String × Json) → List (String × Json)
  | [] => [(k, v)]
  | (k', v') :: ms => if k' == k then (k', v) :: ms else (k', v') :: objInsert k v ms

/-- Builds an object from members listed in source order, later duplicate
keys overwriting earlier ones. -/
def buildObj : List (String × Json) → List (String × Json)
  | ms => ms.foldl (fun acc kv => objInsert kv.fst kv.snd acc) []

/-- Consumes the exact given characters. -/
def expectChars : List Char → List Char → Except String (List Char)
  | [], cs => .ok cs
  | _ :: _, [] => .error "unexpected end"
  | e :: es, c :: cs => if c == e then expectChars es cs else .error "unexpected token"

mutual
/-- Model of the platform primitive `JSON.parse` (value production), by
recursive descent with a fuel bound on nesting depth. -/
def parseVal : Nat → List Char → Except String (Json × List Char)
  | 0, _ => .error "out of fuel"
  | fuel + 1, cs =>
    match skipWs cs with
    | [] => .error "unexpected end"
    | c :: rest =>
      if c == '"' then
        match parseStrAux [] rest with
        | .error e => .error e
        | .ok (s, r) => .ok (.str s, r)
      else if c == '[' then
        match skipWs rest with
        | ']' :: r => .ok (.arr [], r)
        | cs' => parseElems fuel cs' []
      else if c == '\x7b' then
        match skipWs rest with
        | '\x7d' :: r => .ok (.obj [], r)
        | cs' => parseMembers fuel cs' []
      else if c == 't' then
        match expectChars ['r', 'u', 'e'] rest with
        | .error e => .error e
        | .ok r => .ok (.bool true, r)
      else if c == 'f' then
        match expectChars ['a', 'l', 's', 'e'] rest with
        | .error e => .error e
        | .ok r => .ok (.bool false, r)
      else if c == 'n' then
        match expectChars ['u', 'l', 'l'] rest with
        | .error e => .error e
        | .ok r => .ok (.null, r)
      else
        parseNum (c :: rest)
/-- Array elements after the opening bracket of a nonempty array. -/
def parseElems : Nat → List Char → List Json → Except String (Json × List Char)
  | 0, _, _ => .error "out of fuel"
  | fuel + 1, cs, acc =>
    match parseVal fuel cs with
    | .error e => .error e
    | .ok (v, r) =>
      match skipWs r with
      | ',' :: r' => parseElems fuel r' (v :: acc)
      | ']' :: r' => .ok (.arr (v :: acc).reverse, r')
      | _ => .error "expected comma or close bracket"
/-- Object members after the opening brace of a nonempty object. -/
def parseMembers : Nat → List Char → List (String × Json) → Except String (Json × List Char)
  | 0, _, _ => .error "out of fuel"
  | fuel + 1, cs, acc =>
    match skipWs cs with
    | '"' :: r =>
      match parseStrAux [] r with
      | .error e => .error e
      | .ok (k, r1) =>
        match skipWs r1 with
        | ':' :: r2 =>
          match parseVal fuel r2 with
          | .error e => .error e
          | .ok (v, r3) =>
            match skipWs r3 with
            | ',' :: r4 => parseMembers fuel r4 ((k, v) :: acc)
            | '\x7d' :: r4 => .ok (.obj (buildObj ((k, v) :: acc).reverse), r4)
            | _ => .error "expected comma or close brace"
        | _ => .error "expected colon"
    | _ => .error "expected string key"
end

/-- Model of the platform primitive `JSON.parse` without a reviver. -/
def parseJson (s : String) : Except String Json :=
  match parseVal (s.length + 1) s.data with
  | .error e => .error e
  | .ok (j, r) =>
    match skipWs r with
    | [] => .ok j
    | _ => .error "trailing characters"

/-- Extraction of the calendar day from an ISO-8601 date-time string: model
of the date portion of the platform Date constructor applied to a string,
`none` modelling an invalid date. -/
def splitOnChar (sep : Char) (acc : List Char) : List Char → List (List Char)
  | [] => [acc.reverse]
  | c :: cs => if c == sep then acc.reverse :: splitOnChar sep [] cs else splitOnChar sep (c :: acc) cs

/-- Numeric value of a nonempty all-digit character run, `none` otherwise. -/
def digitsToNat : List Char → Option Nat
  | [] => none
  | cs => if cs.all Char.isDigit then some (digitsVal 0 cs) else none

/-- Parses `YYYY-MM-DD` from the front of an ISO-8601 string (everything
from the first `T` on is ignored), validating month and day ranges. -/
def parseIsoDate (s : String) : Option (Nat × Nat × Nat) :=
  match splitOnChar 'T' [] s.data with
  | datePart :: _ =>
    match splitOnChar '-' [] datePart with
    | [y, m, d] =>
      match digitsToNat y, digitsToNat m, digitsToNat d with
      | some yn, some mn, some dn =>
        if 1 ≤ mn && mn ≤ 12 && 1 ≤ dn && dn ≤ 31 then some (yn, mn, dn) else none
      | _, _, _ => none
    | _ => none
  | [] => none

mutual
/-- The reviver walk of `JSON.parse(text, reviver)` (ECMAScript
InternalizeJSONProperty): the reviver is applied bottom-up to every array
element (keyed by its decimal index) and object member, the result
replacing the original child. The root call of the reviver, with key `""`,
is performed by `reparseWithReviver` below. Revivers that return
`undefined` to delete members are outside this model; every reviver in
this repository returns a value. -/
def internalizeVal (rev : String → JsValue → JsValue) : Json → JsValue
  | .null => .null
  | .bool b => .bool b
  | .num n => .num n
  | .str s => .str s
  | .arr es => .arr (internalizeArr rev 0 es)
  | .obj ms => .obj (internalizeObj rev ms)
def internalizeArr (rev : String → JsValue → JsValue) (i : Nat) : List Json → List JsValue
  | [] => []
  | e :: es => rev (toString i) (internalizeVal rev e) :: internalizeArr rev (i + 1) es
def internalizeObj (rev : String → JsValue → JsValue) : List (String × Json) → List (String × JsValue)
  | [] => []
  | (k, v) :: ms => (k, rev k (internalizeVal rev v)) :: internalizeObj rev ms
end

/-- Embedding of plain JSON data into runtime values. -/
def jsonToVal (j : Json) : JsValue :=
  internalizeVal (fun _ v => v) j

/-- Model of the platform composite `JSON.parse(text, reviver)`: parse,
then the reviver walk, then the root reviver call with key `""`. -/
def reparseWithReviver (text : String) (rev : String → JsValue → JsValue) :
    Except JsValue JsValue :=
  match parseJson text with
  | .ok j => .ok (rev "" (internalizeVal rev j))
  | .error m => .error (.errVal m)

/-- A parse strategy as registered in the library: its selection predicate
`canHandle`, its decode operation `parse`, the identifier of its
registration, and the single body-read operation its decode performs
(`readOp` instruments the trace; each strategy in
src/src/strategies/ awaits exactly one body reader). -/
structure ParseStrategy where
  id : StrategyId
  canHandle : String → Bool
  parse : FetchResponse → ParseOptions → Except JsValue JsValue
  readOp : ReadOp

/-- src/src/strategies/additionalStrategy.ts. -/
def additionalStrategy : ParseStrategy where
  id := .additional
  canHandle := fun contentType => additionalTypes.any (fun t => strIncludes contentType t)
  parse := fun response _options =>
    match response.textResult with
    | .ok s => .ok (.str s)
    | .error e => .error (.errVal ("Failed to parse additional content type: " ++ errMessage e))
  readOp := .text

/-- src/src/strategies/binaryStrategy.ts. -/
def binaryStrategy : ParseStrategy where
  id := .binary
  canHandle := fun contentType => binaryTypes.any (fun t => strIncludes contentType t)
  parse := fun response _options =>
    match response.bufferResult with
    | .ok buf => .ok (.bytes buf)
    | .error e => .error (.errVal ("Failed to parse binary data: " ++ errMessage e))
  readOp := .arrayBuffer

/-- src/src/strategies/jsonStrategy.ts (the reviver-aware version): read the
body with `response.json()`; when a reviver is supplied, serialize the
decoded value back to text and re-deserialize it with the reviver applied;
any failure is re-thrown with the `Failed to parse JSON:` prefix. -/
def jsonStrategy : ParseStrategy where
  id := .json
  canHandle := fun contentType => jsonTypes.any (fun t => strIncludes contentType t)
  parse := fun response options =>
    match response.jsonResult with
    | .error e => .error (.errVal ("Failed to parse JSON: " ++ errMessage e))
    | .ok data =>
      match options.reviver with
      | some rev =>
        match reparseWithReviver (stringifyJson data) rev with
        | .ok v => .ok v
        | .error e => .error (.errVal ("Failed to parse JSON: " ++ errMessage e))
      | none => .ok (jsonToVal data)
  readOp := .json

/-- src/src/strategies/textStrategy.ts. -/
def textStrategy : ParseStrategy where
  id := .text
  canHandle := fun contentType => textTypes.any (fun t => strIncludes contentType t)
  parse := fun response _options =>
    match response.textResult with
    | .ok s => .ok (.str s)
    | .error e => .error (.errVal ("Failed to parse text: " ++ errMessage e))
  readOp := .text

/-- src/src/strategies/xmlStrategy.ts. -/
def xmlStrategy : ParseStrategy where
  id := .xml
  canHandle := fun contentType => xmlTypes.any (fun t => strIncludes contentType t)
  parse := fun response _options =>
    match response.textResult with
    | .ok s => .ok (.str s)
    | .error e => .error (.errVal ("Failed to parse XML/text: " ++ errMessage e))
  readOp := .text

/-- src/src/strategies/defaultStrategy.ts: always matches, reads text. -/
def defaultStrategy : ParseStrategy where
  id := .dflt
  canHandle := fun _contentType => true
  parse := fun response _options =>
    match response.textResult with
    | .ok s => .ok (.str s)
    | .error e => .error (.errVal ("Failed to parse response: " ++ errMessage e))
  readOp := .text

/-- The strategy registry in its registration order
(src/src/strategies/index.ts). -/
def strategies : List ParseStrategy :=
  [additionalStrategy, binaryStrategy, jsonStrategy, textStrategy, xmlStrategy]

/-- src/src/parseFetchResponse.ts `getStrategy`: first registered strategy
whose `canHandle` accepts the tag, else the default strategy. -/
def getStrategy (contentType : String) : ParseStrategy :=
  match strategies.find? (fun strategy => strategy.canHandle contentType) with
  | some strategy => strategy
  | none => defaultStrategy

/-- JavaScript property lookup on an object value; `none` for a missing
property and for any non-object receiver. -/
def getProp (v : JsValue) (key : String) : Option JsValue :=
  match v with
  | .obj ms => (ms.find? (fun kv => kv.fst == key)).map (fun kv => kv.snd)
  | _ => none

/-- Property access `v.key`, yielding `undefined` when absent. -/
def getPropD (v : JsValue) (key : String) : JsValue :=
  (getProp v key).getD .undefinedVal

/-- The `typeof` operator. -/
def jsTypeof (v : JsValue) : String :=
  match v with
  | .undefinedVal => "undefined"
  | .bool _ => "boolean"
  | .num _ => "number"
  | .str _ => "string"
  | .null | .arr _ | .obj _ | .date _ | .bytes _ | .errVal _ => "object"

/-- JavaScript truthiness. -/
def jsTruthy (v : JsValue) : Bool :=
  match v with
  | .null => false
  | .undefinedVal => false
  | .bool b => b
  | .num n => n != 0
  | .str s => s != ""
  | _ => true

/-- Whether the value is the JavaScript `null`. -/
def isNullVal : JsValue → Bool
  | .null => true
  | _ => false

/-- The `isParseResult` type guard from the types module: a non-null value
of object type carrying a `success` property of boolean type. -/
def isParseResult (value : JsValue) : Bool :=
  jsTypeof value == "object" && !isNullVal value &&
    (getProp value "success").isSome && jsTypeof (getPropD value "success") == "boolean"

/-- `handleValidationResult` from the types module: a value that is itself
result-shaped passes through; anything else is wrapped as a success. -/
def mkSuccess (d : JsValue) : JsValue :=
  .obj [("success", .bool true), ("data", d)]

/-- The failure result object the core routine constructs: `success: false`
with an array of error message strings. -/
def mkFailure (errs : List String) : JsValue :=
  .obj [("success", .bool false), ("errors", .arr (errs.map JsValue.str))]

/-- `handleValidationResult` from the types module. -/
def handleValidationResult (result : JsValue) : JsValue :=
  if isParseResult result then result else mkSuccess result

mutual
/-- Model of JavaScript string coercion as used by
`Array.prototype.join`. -/
def jsStringCoerce : JsValue → String
  | .null => "null"
  | .undefinedVal => "undefined"
  | .bool true => "true"
  | .bool false => "false"
  | .num n => toString n
  | .str s => s
  | .arr es => arrJoin "," es
  | .obj _ => "[object Object]"
  | .date _ => "[date]"
  | .bytes _ => "[object ArrayBuffer]"
  | .errVal m => "Error: " ++ m
/-- `Array.prototype.join`: null and undefined elements become empty
strings, other elements are string-coerced. -/
def arrJoin (sep : String) : List JsValue → String
  | [] => ""
  | [.null] => ""
  | [.undefinedVal] => ""
  | [v] => jsStringCoerce v
  | .null :: vs => sep ++ arrJoin sep vs
  | .undefinedVal :: vs => sep ++ arrJoin sep vs
  | v :: vs => jsStringCoerce v ++ sep ++ arrJoin sep vs
end

/-- `result.errors.join(', ')` as the entry points perform it on a failure
result. A receiver without an `errors` array would throw a TypeError in
JavaScript; no code path of the library produces one, and the model yields
the empty string there. -/
def joinedErrors (result : JsValue) : String :=
  match getProp result "errors" with
  | some (.arr es) => arrJoin ", " es
  | _ => ""

/-- The effective content type of src/src/parseFetchResponse.ts line 46:
`options.contentType || response.headers.get('content-type') || ''`, with
JavaScript falsiness (absent or empty values fall through). -/
def jsOrElse (a : Option String) (b : String) : String :=
  match a with
  | some s => if s == "" then b else s
  | none => b

/-- The content type the core routine dispatches on. -/
def effectiveContentType (options : ParseOptions) (response : FetchResponse) : String :=
  jsOrElse options.contentType (jsOrElse response.contentTypeHeader "")

/-- The core parse routine `parse` of src/src/parseFetchResponse.ts:
short-circuits on a non-ok status and on a missing body, then selects a
strategy by content type and decodes, wrapping any decode exception. The
second component is the trace of body reads performed. -/
def parse (response : FetchResponse) (options : ParseOptions) : JsValue × List Event :=
  if !response.ok then
    (mkFailure ["ParseFetch Error:HTTP " ++ toString response.status ++ ": " ++
      response.statusText], [])
  else if !response.hasBody then
    (mkFailure ["ParseFetch Error:Response has no body"], [])
  else
    let strategy := getStrategy (effectiveContentType options response)
    (match strategy.parse response options with
     | .ok parsedData => mkSuccess parsedData
     | .error e => mkFailure ["parseFetch failed: " ++ errMessage e],
     [Event.read strategy.readOp])

/-- The throwing entry point `parseFetch`: on a failure result it throws an
error whose message joins the error messages; otherwise it returns the
data, applying the validator first when one is supplied. A validator throw
is not caught and propagates. The second component traces body reads and
validator invocations. -/
def parseFetch (response : FetchResponse) (options : ParseOptions) :
    Except JsValue JsValue × List Event :=
  let parsedResult := (parse response options).fst
  let evs := (parse response options).snd
  if jsTruthy (getPropD parsedResult "success") then
    match options.validator with
    | none => (.ok (getPropD parsedResult "data"), evs)
    | some validate =>
      match validate (getPropD parsedResult "data") with
      | .error thrown => (.error thrown, evs ++ [Event.validate])
      | .ok validationResult =>
        let handledResult := handleValidationResult validationResult
        if jsTruthy (getPropD handledResult "success") then
          (.ok (getPropD handledResult "data"), evs ++ [Event.validate])
        else
          (.error (.errVal (joinedErrors handledResult)), evs ++ [Event.validate])
  else
    (.error (.errVal (joinedErrors parsedResult)), evs)

/-- The safe entry point `parseFetchSafe`: returns the core result
unchanged on failure or when no validator is supplied; otherwise applies
the validator and returns `handleValidationResult` of its return value. A
validator throw is not caught and propagates as a rejection. -/
def parseFetchSafe (response : FetchResponse) (options : ParseOptions) :
    Except JsValue JsValue × List Event :=
  let parsedResult := (parse response options).fst
  let evs := (parse response options).snd
  if jsTruthy (getPropD parsedResult "success") then
    match options.validator with
    | none => (.ok parsedResult, evs)
    | some validate =>
      match validate (getPropD parsedResult "data") with
      | .error thrown => (.error thrown, evs ++ [Event.validate])
      | .ok validationResult =>
        (.ok (handleValidationResult validationResult), evs ++ [Event.validate])
  else
    (.ok parsedResult, evs)

/-- The enhanced value the decorators resolve with: the original response
together with a `parse` operation bound to it. The object spread
`\x7b parse, ...response \x7d` copies every response field, which the
`response` component records wholesale. -/
structure EnhancedResponse where
  parse : ParseOptions → Except JsValue JsValue × List Event
  response : FetchResponse

/-- The decorator `withParse`: awaits the wrapped fetch, resolves with the
enhanced response whose `parse` is the throwing entry point bound to the
received response; a rejection of the wrapped fetch is passed to `reject`
unchanged. The fetch primitive is modelled as a function from the request
input to a resolution or rejection. -/
def withParse (fetchFn : String → Except JsValue FetchResponse) (input : String) :
    Except JsValue EnhancedResponse :=
  match fetchFn input with
  | .ok response => .ok ⟨fun options => parseFetch response options, response⟩
  | .error e => .error e

/-- The decorator `withParseSafe`: as `withParse`, with the safe entry
point; a rejection of the wrapped fetch is likewise passed to `reject`
unchanged. -/
def withParseSafe (fetchFn : String → Except JsValue FetchResponse) (input : String) :
    Except JsValue EnhancedResponse :=
  match fetchFn input with
  | .ok response => .ok ⟨fun options => parseFetchSafe response options, response⟩
  | .error e => .error e

/-- Empty options, the default argument of both entry points. -/
def noOptions : ParseOptions := ⟨none, none, none⟩

/-- A 404 response as in the tests: ok false, JSON content type, with a
body. -/
def resp404 : FetchResponse :=
  ⟨false, 404, "Not Found", some "application/json", true, .ok "body",
   .ok (Json.obj []), .ok []⟩

/-- An ok response with no body. -/
def respNoBody : FetchResponse :=
  ⟨true, 200, "OK", some "application/json", false, .ok "body",
   .ok (Json.obj []), .ok []⟩

/-- The decoded value of the standard successful JSON fixture. -/
def helloVal : JsValue := .obj [("message", .str "Hello World")]

/-- A successful JSON response resolving to a small object. -/
def respHello : FetchResponse :=
  ⟨true, 200, "OK", some "application/json", true, .ok "body",
   .ok (Json.obj [("message", Json.str "Hello World")]), .ok []⟩

/-- The reviver scenario body. -/
def createdBody : Json := .obj [("createdAt", .str "2023-12-25T12:00:00.000Z")]

/-- A successful JSON response whose body is the reviver scenario body. -/
def respCreated : FetchResponse :=
  ⟨true, 200, "OK", some "application/json", true, .ok "body",
   .ok createdBody, .ok []⟩

/-- The reviver of the reviver scenario (src/src/__tests__/parseFetch.test.ts):
converts the string under the key `createdAt` to a Date constructed from
it, and returns every other value unchanged. -/
def createdAtReviver : String → JsValue → JsValue := fun key value =>
  if key == "createdAt" && jsTypeof value == "string" then
    match value with
    | .str s => .date (parseIsoDate s)
    | _ => value
  else value

/-- Options carrying the scenario reviver. -/
def optsReviver : ParseOptions := ⟨none, some createdAtReviver, none⟩

/-- A throwing validator that always raises an error with message
`boom`. -/
def throwingValidator : JsValue → Except JsValue JsValue := fun _ => .error (.errVal "boom")

/-- Options carrying the throwing validator. -/
def optsThrowing : ParseOptions := ⟨none, none, some throwingValidator⟩

/-- A validator that must never run; it throws if invoked. -/
def poisonValidator : JsValue → Except JsValue JsValue := fun _ => .error (.errVal "must not run")

/-- Options carrying the poison validator. -/
def optsPoison : ParseOptions := ⟨none, none, some poisonValidator⟩

/-- A value that is legitimate data yet shaped like a Result: a non-null
object with a boolean `success` property. -/
def resultShaped : JsValue := .obj [("success", .bool true), ("data", .str "payload")]

/-- A validator returning `resultShaped` as its (non-thrown) value. -/
def shapeValidator : JsValue → Except JsValue JsValue := fun _ => .ok resultShaped

/-- Options carrying the shape validator. -/
def optsShape : ParseOptions := ⟨none, none, some shapeValidator⟩

/-- The rejection reason of a failing transport: an Error object. -/
def netErr : JsValue := .errVal "Network error"

/-- A fetch primitive whose call rejects with `netErr` (transport
failure, no HTTP response at all). -/
def failingFetch : String → Except JsValue FetchResponse := fun _ => .error netErr

/-- A fetch primitive resolving with the successful JSON fixture. -/
def okFetch : String → Except JsValue FetchResponse := fun _ => .ok respHello

/-- Modelled from the spec: the structured `http`-kind error detail the
specification describes for safe failure Results (kind, numeric status,
status text, message). The library under src/ has no such structure; this
definition exists only to compare the claim against the code. -/
def specHttpErrorDetail (status : Nat) (statusText message : String) : JsValue :=
  .obj [("kind", .str "http"), ("status", .num (status : Int)),
        ("statusText", .str statusText), ("message", .str message)]

/-- Modelled from the spec: the failure-Result-shaped rejection value the
specification prescribes for the safe decorator on transport failure. The
library under src/ never constructs it; this definition exists only to
compare the claim against the code. -/
def specNetworkFailureResult (msg : String) : JsValue :=
  .obj [("success", .bool false),
        ("errors", .arr [.obj [("kind", .str "network"),
                               ("message", .str ("parseFetch failed: " ++ msg))]])]

theorem getPropD_mkSuccess_success (d : JsValue) :
    getPropD (mkSuccess d) "success" = .bool true := rfl

theorem getPropD_mkSuccess_data (d : JsValue) :
    getPropD (mkSuccess d) "data" = d := rfl

theorem jsTruthy_getPropD_mkSuccess (d : JsValue) :
    jsTruthy (getPropD (mkSuccess d) "success") = true := rfl

/-- The core routine never logs a validator invocation: its trace is empty
on the short-circuit paths and a single body read otherwise. -/
theorem validate_not_mem_parse_snd (r : FetchResponse) (o : ParseOptions) :
    Event.validate ∉ (parse r o).snd := by
  unfold parse
  split
  · simp
  · split
    · simp
    · simp

/-- The core routine on a response with ok false: an http failure Result
and an empty trace. -/
theorem parse_not_ok (r : FetchResponse) (o : ParseOptions) (hok : r.ok = false) :
    parse r o =
      (mkFailure ["ParseFetch Error:HTTP " ++ toString r.status ++ ": " ++ r.statusText],
       []) := by
  unfold parse
  rw [hok]
  rfl

/-- The core routine on an ok response without a body: the
missing-body failure Result and an empty trace. -/
theorem parse_no_body (r : FetchResponse) (o : ParseOptions)
    (hok : r.ok = true) (hb : r.hasBody = false) :
    parse r o = (mkFailure ["ParseFetch Error:Response has no body"], []) := by
  unfold parse
  rw [hok, hb]
  rfl

/-- C1 (amended): for every response with ok false, status 404 and status
text `Not Found`, and any options, the safe entry point returns a failure
Result whose single error is the plain string
`ParseFetch Error:HTTP 404: Not Found` (the status and status text appear
only inside that message text, not as structured fields), the throwing
entry point raises an error whose message contains `HTTP 404: Not Found`,
and no body-read operation is invoked before returning. -/
theorem c1_http_error_short_circuit (r : FetchResponse) (o : ParseOptions)
    (hok : r.ok = false) (hst : r.status = 404) (htx : r.statusText = "Not Found") :
    parseFetchSafe r o = (.ok (mkFailure ["ParseFetch Error:HTTP 404: Not Found"]), []) ∧
    parseFetch r o = (.error (.errVal "ParseFetch Error:HTTP 404: Not Found"), []) ∧
    strIncludes "ParseFetch Error:HTTP 404: Not Found" "HTTP 404: Not Found" = true := by
  have hp : parse r o = (mkFailure ["ParseFetch Error:HTTP 404: Not Found"], []) := by
    rw [parse_not_ok r o hok, hst, htx]
    rfl
  refine ⟨?_, ?_, by decide⟩
  · unfold parseFetchSafe
    rw [hp]
    rfl
  · unfold parseFetch
    rw [hp]
    rfl

/-- C1 witness: the amended theorem applied to the concrete 404 fixture. -/
theorem c1_http_error_short_circuit_witness :
    resp404.ok = false ∧
    parseFetchSafe resp404 noOptions =
      (.ok (mkFailure ["ParseFetch Error:HTTP 404: Not Found"]), []) :=
  ⟨rfl, (c1_http_error_short_circuit resp404 noOptions rfl rfl rfl).1⟩

/-- C1 counterexample: on the concrete 404 response the safe result's sole
error is the plain message string, which is not the structured http-kind
detail (with kind, status and statusText fields) the claim asserts. -/
theorem c1_error_detail_shape_counterexample :
    (parseFetchSafe resp404 noOptions).fst =
      .ok (.obj [("success", .bool false),
                 ("errors", .arr [.str "ParseFetch Error:HTTP 404: Not Found"])]) ∧
    JsValue.str "ParseFetch Error:HTTP 404: Not Found" ≠
      specHttpErrorDetail 404 "Not Found" "ParseFetch Error:HTTP 404: Not Found" := by
  refine ⟨rfl, ?_⟩
  intro h
  simp [specHttpErrorDetail] at h

/-- C8: for every ok response whose body is absent, and any options, both
entry points short-circuit: the safe entry point returns a failure Result
with exactly one error, the string `ParseFetch Error:Response has no body`,
the throwing entry point raises with that message, and no body-read
operation is invoked. -/
theorem c8_missing_body_short_circuit (r : FetchResponse) (o : ParseOptions)
    (hok : r.ok = true) (hb : r.hasBody = false) :
    parseFetchSafe r o = (.ok (mkFailure ["ParseFetch Error:Response has no body"]), []) ∧
    parseFetch r o = (.error (.errVal "ParseFetch Error:Response has no body"), []) := by
  have hp : parse r o = (mkFailure ["ParseFetch Error:Response has no body"], []) :=
    parse_no_body r o hok hb
  refine ⟨?_, ?_⟩
  · unfold parseFetchSafe
    rw [hp]
    rfl
  · unfold parseFetch
    rw [hp]
    rfl

/-- C8 witness: the theorem applied to the concrete bodyless fixture. -/
theorem c8_missing_body_short_circuit_witness :
    respNoBody.ok = true ∧ respNoBody.hasBody = false ∧
    parseFetchSafe respNoBody noOptions =
      (.ok (mkFailure ["ParseFetch Error:Response has no body"]), []) :=
  ⟨rfl, rfl, (c8_missing_body_short_circuit respNoBody noOptions rfl rfl).1⟩

/-- C3: every known content-type tag of the five catalog families selects
the strategy of the family that lists it (despite substring matching and
the fixed registry scan order); every tag matched by no registered
strategy, the empty string included, selects the default strategy, so
selection is total. -/
theorem c3_strategy_selection_total :
    ((jsonTypes.all fun t => (getStrategy t).id == StrategyId.json) = true ∧
     (xmlTypes.all fun t => (getStrategy t).id == StrategyId.xml) = true ∧
     (textTypes.all fun t => (getStrategy t).id == StrategyId.text) = true ∧
     (binaryTypes.all fun t => (getStrategy t).id == StrategyId.binary) = true ∧
     (additionalTypes.all fun t => (getStrategy t).id == StrategyId.additional) = true) ∧
    (∀ tag : String, (strategies.all fun s => !s.canHandle tag) = true →
      getStrategy tag = defaultStrategy) ∧
    getStrategy "" = defaultStrategy := by
  refine ⟨⟨by decide, by decide, by decide, by decide, by decide⟩, ?_, rfl⟩
  intro tag h
  unfold getStrategy
  have hnone : strategies.find? (fun strategy => strategy.canHandle tag) = none := by
    rw [List.find?_eq_none]
    intro s hs
    have := (List.all_eq_true.mp h) s hs
    simpa using this
  rw [hnone]

/-- C3 witness: the universal part applied to a concrete unknown tag. -/
theorem c3_strategy_selection_total_witness :
    (strategies.all fun s => !s.canHandle "application/unknown-type") = true ∧
    getStrategy "application/unknown-type" = defaultStrategy :=
  ⟨by decide, c3_strategy_selection_total.2.1 "application/unknown-type" (by decide)⟩

/-- C4 (amended): when the wrapped fetch primitive itself rejects, both
decorator variants pass the rejection reason through unchanged; in
particular the safe variant performs no transposition into a
failure-Result-shaped value. -/
theorem c4_decorator_rejection_passthrough
    (fetchFn : String → Except JsValue FetchResponse) (input : String) (e : JsValue)
    (h : fetchFn input = .error e) :
    withParseSafe fetchFn input = .error e ∧ withParse fetchFn input = .error e := by
  simp only [withParse, withParseSafe, h]
  exact ⟨trivial, trivial⟩

/-- C4 witness: the theorem applied to a concrete failing fetch. -/
theorem c4_decorator_rejection_passthrough_witness :
    failingFetch "https://api.example.com/data" = .error netErr ∧
    withParseSafe failingFetch "https://api.example.com/data" = .error netErr :=
  ⟨rfl, (c4_decorator_rejection_passthrough failingFetch "https://api.example.com/data"
    netErr rfl).1⟩

/-- C4 counterexample: on a transport failure the safe decorator rejects
with the original error object, which is not the failure-Result-shaped
value the claim asserts. -/
theorem c4_network_transposition_counterexample :
    withParseSafe failingFetch "https://api.example.com/data" = .error netErr ∧
    netErr ≠ specNetworkFailureResult "Network error" := by
  refine ⟨rfl, ?_⟩
  intro h
  simp [netErr, specNetworkFailureResult] at h

/-- C9: when the wrapped fetch resolves, each decorator resolves with the
enhanced value that carries the received response wholesale (so every
original field keeps its original value) together with a parse operation
bound to exactly that response: the throwing entry point for `withParse`,
the safe entry point for `withParseSafe`. -/
theorem c9_enhanced_response_frame
    (fetchFn : String → Except JsValue FetchResponse) (input : String)
    (resp : FetchResponse) (h : fetchFn input = .ok resp) :
    withParse fetchFn input = .ok ⟨fun options => parseFetch resp options, resp⟩ ∧
    withParseSafe fetchFn input = .ok ⟨fun options => parseFetchSafe resp options, resp⟩ := by
  simp only [withParse, withParseSafe, h]
  exact ⟨trivial, trivial⟩

/-- C9 witness: the theorem applied to a concrete resolving fetch. -/
theorem c9_enhanced_response_frame_witness :
    okFetch "https://api.example.com/data" = .ok respHello ∧
    withParse okFetch "https://api.example.com/data" =
      .ok ⟨fun options => parseFetch respHello options, respHello⟩ :=
  ⟨rfl, (c9_enhanced_response_frame okFetch "https://api.example.com/data" respHello rfl).1⟩

/-- C2 (amended): for every response and options whose core decode
produces a success Result with data `d` and whose validator is present:
a raise of the validator propagates out of the safe entry point as a
rejection (it is not converted into a failure Result); a normally
returned value that is not itself Result-shaped becomes the success
Result's data; and a returned Result-shaped value (in particular the
Result of a safe Validator) is passed through unchanged by the safe
entry point. -/
theorem c2_validator_interaction (r : FetchResponse) (o : ParseOptions) (d : JsValue)
    (validate : JsValue → Except JsValue JsValue)
    (hsucc : (parse r o).fst = mkSuccess d) (hval : o.validator = some validate) :
    (∀ e, validate d = .error e → (parseFetchSafe r o).fst = .error e) ∧
    (∀ w, validate d = .ok w → isParseResult w = false →
      (parseFetchSafe r o).fst = .ok (mkSuccess w)) ∧
    (∀ w, validate d = .ok w → isParseResult w = true →
      (parseFetchSafe r o).fst = .ok w) := by
  refine ⟨?_, ?_, ?_⟩
  · intro e he
    simp only [parseFetchSafe, hsucc, hval, getPropD_mkSuccess_success,
      getPropD_mkSuccess_data, jsTruthy, if_true, he]
  · intro w hw hshape
    simp only [parseFetchSafe, hsucc, hval, getPropD_mkSuccess_success,
      getPropD_mkSuccess_data, jsTruthy, if_true, hw, handleValidationResult, hshape,
      Bool.false_eq_true, if_false]
  · intro w hw hshape
    simp only [parseFetchSafe, hsucc, hval, getPropD_mkSuccess_success,
      getPropD_mkSuccess_data, jsTruthy, if_true, hw, handleValidationResult, hshape,
      if_true]

/-- C2 witness: the amended theorem applied to the successful JSON fixture
and the concrete throwing validator. -/
theorem c2_validator_interaction_witness :
    (parse respHello optsThrowing).fst = mkSuccess helloVal ∧
    throwingValidator helloVal = .error (.errVal "boom") ∧
    (parseFetchSafe respHello optsThrowing).fst = .error (.errVal "boom") :=
  ⟨rfl, rfl,
    (c2_validator_interaction respHello optsThrowing helloVal throwingValidator rfl rfl).1
      (.errVal "boom") rfl⟩

/-- C2 counterexample: with a successful decode and a validator that
raises, the safe entry point rejects with the thrown error instead of
returning the parse-kind failure Result the claim asserts. -/
theorem c2_throwing_validator_counterexample :
    (parseFetchSafe respHello optsThrowing).fst = .error (.errVal "boom") ∧
    (parseFetchSafe respHello optsThrowing).fst ≠
      .ok (mkFailure ["parseFetch failed: boom"]) := by
  refine ⟨rfl, ?_⟩
  intro h
  have h2 : Except.error (JsValue.errVal "boom") =
      Except.ok (mkFailure ["parseFetch failed: boom"]) := h
  exact Except.noConfusion h2

/-- C6: whenever the core decode yields a failure Result (bad status,
missing body, or decode exception), neither entry point ever invokes the
validator: no validate event occurs in either trace. -/
theorem c6_validator_only_after_success (r : FetchResponse) (o : ParseOptions)
    (h : jsTruthy (getPropD (parse r o).fst "success") = false) :
    Event.validate ∉ (parseFetch r o).snd ∧ Event.validate ∉ (parseFetchSafe r o).snd := by
  have hv := validate_not_mem_parse_snd r o
  constructor
  · simp only [parseFetch, h, Bool.false_eq_true, if_false]
    exact hv
  · simp only [parseFetchSafe, h, Bool.false_eq_true, if_false]
    exact hv

/-- C6 witness: the theorem applied to the 404 fixture with a validator
supplied. -/
theorem c6_validator_only_after_success_witness :
    jsTruthy (getPropD (parse resp404 optsPoison).fst "success") = false ∧
    Event.validate ∉ (parseFetch resp404 optsPoison).snd :=
  ⟨rfl, (c6_validator_only_after_success resp404 optsPoison rfl).1⟩

/-- C7: for every JSON-family response whose body reader yields `data` and
options carrying a reviver, the JSON strategy's decode equals
re-deserializing (with the reviver) the serialization of `data`; with no
reviver the plainly decoded value is returned unchanged; and on the
concrete scenario body the decoded value's `createdAt` member is a valid
date representing December 25, 2023. -/
theorem c7_json_reviver_double_pass :
    (∀ (r : FetchResponse) (o : ParseOptions) (data : Json)
        (rev : String → JsValue → JsValue) (v : JsValue),
      jsonStrategy.canHandle (effectiveContentType o r) = true →
      r.jsonResult = .ok data → o.reviver = some rev →
      reparseWithReviver (stringifyJson data) rev = .ok v →
      jsonStrategy.parse r o = .ok v) ∧
    (∀ (r : FetchResponse) (o : ParseOptions) (data : Json),
      jsonStrategy.canHandle (effectiveContentType o r) = true →
      r.jsonResult = .ok data → o.reviver = none →
      jsonStrategy.parse r o = .ok (jsonToVal data)) ∧
    jsonStrategy.parse respCreated optsReviver =
      .ok (.obj [("createdAt", .date (some (2023, 12, 25)))]) := by
  refine ⟨?_, ?_, rfl⟩
  · intro r o data rev v _hct h1 h2 h3
    simp only [jsonStrategy, h1, h2, h3]
  · intro r o data _hct h1 h2
    simp only [jsonStrategy, h1, h2]

/-- C7 witness: the universal double-pass part applied to the concrete
reviver scenario. -/
theorem c7_json_reviver_double_pass_witness :
    respCreated.jsonResult = .ok createdBody ∧
    reparseWithReviver (stringifyJson createdBody) createdAtReviver =
      .ok (.obj [("createdAt", .date (some (2023, 12, 25)))]) ∧
    jsonStrategy.parse respCreated optsReviver =
      .ok (.obj [("createdAt", .date (some (2023, 12, 25)))]) :=
  ⟨rfl, rfl,
    c7_json_reviver_double_pass.1 respCreated optsReviver createdBody createdAtReviver
      (.obj [("createdAt", .date (some (2023, 12, 25)))]) rfl rfl rfl rfl⟩

/-- C10: the entry points classify a validator's returned value by shape:
a Result-shaped value (non-null object with boolean `success`) passes
through `handleValidationResult` unchanged, any other value is wrapped as
a success; consequently a throwing-style validator that legitimately
returns data shaped like a Result has that data reinterpreted as a Result,
as the concrete run shows: the throwing entry point returns the value's
`data` member instead of the value itself, and the safe entry point
returns the value as the Result. -/
theorem c10_result_shape_classification :
    (∀ w, isParseResult w = true → handleValidationResult w = w) ∧
    (∀ w, isParseResult w = false → handleValidationResult w = mkSuccess w) ∧
    (parseFetch respHello optsShape).fst = .ok (.str "payload") ∧
    (parseFetch respHello optsShape).fst ≠ .ok resultShaped ∧
    (parseFetchSafe respHello optsShape).fst = .ok resultShaped := by
  refine ⟨?_, ?_, rfl, ?_, rfl⟩
  · intro w hw
    simp [handleValidationResult, hw]
  · intro w hw
    simp [handleValidationResult, hw]
  · intro h
    have h2 : Except.ok (JsValue.str "payload") = Except.ok resultShaped := h
    have h3 := Except.ok.inj h2
    simp [resultShaped] at h3

/-- C10 witness: the shape-classification part applied to the concrete
Result-shaped value. -/
theorem c10_result_shape_classification_witness :
    isParseResult resultShaped = true ∧ handleValidationResult resultShaped = resultShaped :=
  ⟨rfl, c10_result_shape_classification.1 resultShaped rfl⟩

/-- C5: the two entry points agree on every response and options: whenever
the safe entry point returns a success Result, the throwing entry point
returns its `data` member unwrapped; whenever the safe entry point returns
a failure Result, the throwing entry point raises an error whose message
is the failure's error messages joined by a comma and space. -/
theorem c5_throwing_safe_agreement (r : FetchResponse) (o : ParseOptions) (v : JsValue)
    (h : (parseFetchSafe r o).fst = .ok v) :
    (jsTruthy (getPropD v "success") = true →
      (parseFetch r o).fst = .ok (getPropD v "data")) ∧
    (jsTruthy (getPropD v "success") = false →
      (parseFetch r o).fst = .error (.errVal (joinedErrors v))) := by
  by_cases hs : jsTruthy (getPropD (parse r o).fst "success") = true
  · cases hval : o.validator with
    | none =>
      have hv : (parse r o).fst = v := by
        simp only [parseFetchSafe, hval, hs, if_true, Except.ok.injEq] at h
        exact h
      subst hv
      constructor
      · intro _ht
        simp only [parseFetch, hval, hs, if_true]
      · intro hf
        rw [hs] at hf
        exact absurd hf (by simp)
    | some validate =>
      cases hres : validate (getPropD (parse r o).fst "data") with
      | error e =>
        exfalso
        simp only [parseFetchSafe, hval, hs, if_true, hres] at h
        exact Except.noConfusion h
      | ok vres =>
        have hv : handleValidationResult vres = v := by
          simp only [parseFetchSafe, hval, hs, if_true, hres, Except.ok.injEq] at h
          exact h
        subst hv
        constructor
        · intro ht
          simp only [parseFetch, hval, hs, if_true, hres, ht]
        · intro hf
          simp only [parseFetch, hval, hs, if_true, hres, hf, Bool.false_eq_true, if_false]
  · have hs' : jsTruthy (getPropD (parse r o).fst "success") = false := by
      cases hjs : jsTruthy (getPropD (parse r o).fst "success") with
      | false => rfl
      | true => exact absurd hjs hs
    have hv : (parse r o).fst = v := by
      simp only [parseFetchSafe, hs', Bool.false_eq_true, if_false, Except.ok.injEq] at h
      exact h
    subst hv
    constructor
    · intro ht
      rw [hs'] at ht
      exact absurd ht (by simp)
    · intro _hf
      simp only [parseFetch, hs', Bool.false_eq_true, if_false]

/-- C5 witness: the theorem applied to the successful JSON fixture without
a validator. -/
theorem c5_throwing_safe_agreement_witness :
    (parseFetchSafe respHello noOptions).fst = .ok (mkSuccess helloVal) ∧
    jsTruthy (getPropD (mkSuccess helloVal) "success") = true ∧
    (parseFetch respHello noOptions).fst = .ok (getPropD (mkSuccess helloVal) "data") :=
  ⟨rfl, rfl,
    (c5_throwing_safe_agreement respHello noOptions (mkSuccess helloVal) rfl).1 rfl⟩
